import Mathlib

/-!
Verification of the data-quality checker: a shallow embedding of the
`DataQualityChecker` class (`quality_checker.py`) and its schema loader,
with theorems settling the specification's claims about the four checks.

Datasets are modelled column-name/dtype/row-wise; cells are rationals,
strings, or nulls (pandas `NaN`).  Fallible pandas operations (elementwise
comparison of a non-numeric cell against a numeric bound raises
`TypeError`) are modelled in `Except Unit`.
-/

namespace DQC

/-- A scalar cell of the dataset: a null (pandas `NaN`), a numeric value
(ints and floats modelled as rationals), or a piece of text. -/
inductive Cell where
  | null : Cell
  | num : ℚ → Cell
  | str : String → Cell
deriving DecidableEq

/-- A dataset row: one cell per column, in column order. -/
abbrev Row := List Cell

/-- The dataset (`pd.DataFrame`): named columns, a literal dtype tag per
column (parallel to `colNames`), and the rows. -/
structure Df where
  colNames : List String
  dtypes : List String
  rows : List Row
deriving DecidableEq

/-- Position of a column name (first occurrence, as pandas column lookup). -/
def Df.colIdx (df : Df) (c : String) : ℕ := df.colNames.indexOf c

/-- The literal dtype tag of a named column, `str(df[col].dtype)`. -/
def Df.dtypeOf (df : Df) (c : String) : String :=
  df.dtypes.getD (df.colIdx c) "object"

/-- The cells of the column at position `i`. -/
def Df.cellsAt (df : Df) (i : ℕ) : List Cell :=
  df.rows.map (fun r => r.getD i Cell.null)

/-- The cells of a named column, `df[col]`. -/
def Df.colCells (df : Df) (c : String) : List Cell :=
  df.cellsAt (df.colIdx c)

/-- `df.isnull().mean() * 100` for the column at position `i`: the fraction
of null cells over all rows, times 100 (an empty frame yields 0 via
rational division by zero, matching the `NaN > 0 = False` filtering). -/
def missingPct (df : Df) (i : ℕ) : ℚ :=
  (((df.cellsAt i).countP (fun c => decide (c = Cell.null)) : ℚ) /
    (df.rows.length : ℚ)) * 100

/-- The full missing summary, one entry per column in dataset order. -/
def missingSummary (df : Df) : List (String × ℚ) :=
  df.colNames.enum.map (fun p => (p.2, missingPct df p.1))

/-- Comparator for `sort_values(ascending=False)`: `a` before `b` when
`a`'s percentage is at least `b`'s. -/
def pctGe (a b : String × ℚ) : Prop := b.2 ≤ a.2

instance : DecidableRel pctGe := fun a b => inferInstanceAs (Decidable (b.2 ≤ a.2))

/-- `check_missing_data`: keep the columns with a strictly positive missing
percentage and sort them by descending percentage. -/
def check_missing_data (df : Df) : List (String × ℚ) :=
  List.insertionSort pctGe ((missingSummary df).filter (fun p => decide (0 < p.2)))

/-- `check_duplicates`: `df[df.duplicated()]` — the rows (with their
original index) for which some strictly earlier row has identical values
in every column. -/
def check_duplicates (df : Df) : List (ℕ × Row) :=
  df.rows.enum.filter (fun p => decide (p.2 ∈ df.rows.take p.1))

/-- One rule of the data dictionary after loading: expected type tag and
the two optional numeric bounds. -/
structure SchemaEntry where
  column_name : String
  data_type : String
  min_value : Option ℚ
  max_value : Option ℚ
deriving DecidableEq

/-- One record of the type-mismatch report. -/
structure TypeRec where
  expected : String
  actual : String
deriving DecidableEq

/-- Python `dict` assignment `m[k] = v`: replace in place when the key is
present, append otherwise. -/
def dictInsert {β : Type} (m : List (String × β)) (k : String) (v : β) :
    List (String × β) :=
  if m.any (fun p => p.1 == k) then
    m.map (fun p => if p.1 = k then (k, v) else p)
  else m ++ [(k, v)]

/-- Python `dict` lookup. -/
def dictLookup {β : Type} (m : List (String × β)) (k : String) : Option β :=
  (m.find? (fun p => p.1 == k)).map Prod.snd

/-- `pd.api.types.is_datetime64_any_dtype` on a column's literal tag: true
exactly for the datetime64 family (naive and timezone-aware). -/
def isDatetimeDtype (t : String) : Bool :=
  List.isPrefixOf "datetime64".toList t.toList

/-- The body of `validate_data_types`'s loop for one schema entry. -/
def typeStep (df : Df) (m : List (String × TypeRec)) (e : SchemaEntry) :
    List (String × TypeRec) :=
  if e.column_name ∈ df.colNames then
    let actual := df.dtypeOf e.column_name
    if e.data_type = "datetime" then
      if isDatetimeDtype actual then m
      else dictInsert m e.column_name ⟨"datetime", actual⟩
    else if actual ≠ e.data_type then dictInsert m e.column_name ⟨e.data_type, actual⟩
    else m
  else m

/-- `validate_data_types`: fold the per-entry step over the data dictionary
rows in order, starting from the empty report. -/
def validate_data_types (df : Df) (dd : List SchemaEntry) :
    List (String × TypeRec) :=
  dd.foldl (typeStep df) []

/-- Elementwise `cell < q`: null compares false, text raises `TypeError`. -/
def cellLt (c : Cell) (q : ℚ) : Except Unit Bool :=
  match c with
  | Cell.null => Except.ok false
  | Cell.num x => Except.ok (decide (x < q))
  | Cell.str _ => Except.error ()

/-- Elementwise `cell > q`: null compares false, text raises `TypeError`. -/
def cellGt (c : Cell) (q : ℚ) : Except Unit Bool :=
  match c with
  | Cell.null => Except.ok false
  | Cell.num x => Except.ok (decide (q < x))
  | Cell.str _ => Except.error ()

/-- The boolean mask `df[col] < q` (fails if any cell comparison fails). -/
def seriesLt (cells : List Cell) (q : ℚ) : Except Unit (List Bool) :=
  match cells with
  | [] => Except.ok []
  | c :: t => do
    let b ← cellLt c q
    let bs ← seriesLt t q
    pure (b :: bs)

/-- The boolean mask `df[col] > q`. -/
def seriesGt (cells : List Cell) (q : ℚ) : Except Unit (List Bool) :=
  match cells with
  | [] => Except.ok []
  | c :: t => do
    let b ← cellGt c q
    let bs ← seriesGt t q
    pure (b :: bs)

/-- The body of `validate_numeric_ranges`'s loop for one schema entry:
with both bounds non-null and the column present, count the rows where
`value < min or value > max` and record the count when it is non-zero. -/
def rangeStep (df : Df) (m : List (String × ℕ)) (e : SchemaEntry) :
    Except Unit (List (String × ℕ)) :=
  match e.min_value, e.max_value with
  | some mn, some mx =>
    if e.column_name ∈ df.colNames then do
      let lt ← seriesLt (df.colCells e.column_name) mn
      let gt ← seriesGt (df.colCells e.column_name) mx
      let n := (lt.zip gt).countP (fun p => p.1 || p.2)
      pure (if n = 0 then m else dictInsert m e.column_name n)
    else pure m
  | _, _ => pure m

/-- `validate_numeric_ranges`: fold the per-entry step over the data
dictionary rows in order; the whole run fails if any entry's comparison
raises. -/
def validate_numeric_ranges (df : Df) (dd : List SchemaEntry) :
    Except Unit (List (String × ℕ)) :=
  dd.foldlM (rangeStep df) []

instance {ε α : Type} [DecidableEq ε] [DecidableEq α] : DecidableEq (Except ε α)
  | Except.error x, Except.error y =>
      if h : x = y then Decidable.isTrue (congrArg Except.error h)
      else Decidable.isFalse (fun hh => h (Except.error.inj hh))
  | Except.error _, Except.ok _ => Decidable.isFalse (fun hh => Except.noConfusion hh)
  | Except.ok _, Except.error _ => Decidable.isFalse (fun hh => Except.noConfusion hh)
  | Except.ok x, Except.ok y =>
      if h : x = y then Decidable.isTrue (congrArg Except.ok h)
      else Decidable.isFalse (fun hh => h (Except.ok.inj hh))

/-- One raw row of the data-dictionary CSV before normalization: the bound
fields are raw text (`none` models an empty cell read as `NaN`). -/
structure RawEntry where
  column_name : String
  data_type : String
  min_value : Option String
  max_value : Option String

/-- Numeric value of a digit run. -/
def digitsVal (l : List Char) : ℕ :=
  l.foldl (fun a c => a * 10 + (c.toNat - 48)) 0

/-- Whitespace the numeric parser strips at either end of a value. -/
def isSpaceChar (c : Char) : Bool :=
  c == ' ' || c == '\t' || c == '\n' || c == '\r'

/-- A model of `pd.to_numeric(·, errors="coerce")` on one text value:
optional surrounding whitespace, an optional sign, a decimal mantissa
(digits, with an optional point on either side of them), and an optional
signed exponent, as in `"1e5"` or `" -2.5E-3 "`; any other shape fails
to parse and is mapped to `none`, never an error.  Named non-finite
floats such as `"inf"`, which pandas parses to infinity, have no
rational counterpart and also map to `none`; `"nan"` maps to `none`
exactly as pandas maps it to a null. -/
def parseNum (s : String) : Option ℚ :=
  let cs0 := s.toList.dropWhile isSpaceChar
  let cs := (cs0.reverse.dropWhile isSpaceChar).reverse
  let signed : ℚ × List Char :=
    match cs with
    | '-' :: t => (-1, t)
    | '+' :: t => (1, t)
    | _ => (1, cs)
  let mant := signed.2.takeWhile (fun c => !(c == 'e' || c == 'E'))
  let expPart := signed.2.dropWhile (fun c => !(c == 'e' || c == 'E'))
  let ip := mant.takeWhile Char.isDigit
  let rest := mant.dropWhile Char.isDigit
  let mantVal : Option ℚ :=
    match rest with
    | [] => if ip.isEmpty then none else some (digitsVal ip : ℚ)
    | '.' :: fp =>
      if fp.all Char.isDigit && !(ip.isEmpty && fp.isEmpty) then
        some ((digitsVal ip : ℚ) + (digitsVal fp : ℚ) / ((10 ^ fp.length : ℕ) : ℚ))
      else none
    | _ => none
  let expVal : Option ℚ :=
    match expPart with
    | [] => some 1
    | _ :: er =>
      let esigned : Bool × List Char :=
        match er with
        | '-' :: t => (true, t)
        | '+' :: t => (false, t)
        | _ => (false, er)
      if !esigned.2.isEmpty && esigned.2.all Char.isDigit then
        some (if esigned.1 then 1 / ((10 ^ digitsVal esigned.2 : ℕ) : ℚ)
              else ((10 ^ digitsVal esigned.2 : ℕ) : ℚ))
      else none
  match mantVal, expVal with
  | some mv, some ev => some (signed.1 * (mv * ev))
  | _, _ => none

/-- Normalization of one raw schema row: both bounds are coerced to
numeric, a value that fails to parse becoming absent. -/
def loadEntry (r : RawEntry) : SchemaEntry :=
  ⟨r.column_name, r.data_type, r.min_value.bind parseNum,
    r.max_value.bind parseNum⟩

/-- `load_data_dict` after the CSV has been read: coerce the two bound
columns of every row, never failing.  This is the normalization
performed by both of `quality_checker.py`'s loaders and by
`data-quality-checker.py`'s `load_data_dict`. -/
def load_data_dict (raw : List RawEntry) : List SchemaEntry :=
  raw.map loadEntry

/-- `load_data_dictionary` of `data-quality-checker.py` (the loader that
file's `main` actually calls): after the existence check it returns the
table read by `pd.read_csv` unchanged — it performs no bound coercion. -/
def load_data_dictionary (raw : List RawEntry) : List RawEntry := raw

/-- The scalar an uncoerced bound field holds after `pd.read_csv`: an
empty cell is a null, numeric text is a number, any other text stays a
string (for a uniformly typed bound column this is exactly pandas'
per-column dtype inference). -/
def rawBound (v : Option String) : Cell :=
  match v with
  | none => Cell.null
  | some s =>
    match parseNum s with
    | some q => Cell.num q
    | none => Cell.str s

/-- Elementwise `cell < bound` for an arbitrary (possibly uncoerced)
bound scalar: a numeric bound behaves as `cellLt`; a text bound compares
lexicographically against a text cell and raises a `TypeError` against a
numeric or null cell; a null bound compares false. -/
def cellLtC (c : Cell) (b : Cell) : Except Unit Bool :=
  match b with
  | Cell.num q => cellLt c q
  | Cell.null => Except.ok false
  | Cell.str bs =>
    match c with
    | Cell.str cs => Except.ok (decide (cs < bs))
    | _ => Except.error ()

/-- Elementwise `cell > bound` for an arbitrary bound scalar. -/
def cellGtC (c : Cell) (b : Cell) : Except Unit Bool :=
  match b with
  | Cell.num q => cellGt c q
  | Cell.null => Except.ok false
  | Cell.str bs =>
    match c with
    | Cell.str cs => Except.ok (decide (bs < cs))
    | _ => Except.error ()

/-- The mask `df[col] < bound` over uncoerced bounds. -/
def seriesLtC (cells : List Cell) (b : Cell) : Except Unit (List Bool) :=
  match cells with
  | [] => Except.ok []
  | c :: t => do
    let x ← cellLtC c b
    let xs ← seriesLtC t b
    pure (x :: xs)

/-- The mask `df[col] > bound` over uncoerced bounds. -/
def seriesGtC (cells : List Cell) (b : Cell) : Except Unit (List Bool) :=
  match cells with
  | [] => Except.ok []
  | c :: t => do
    let x ← cellGtC c b
    let xs ← seriesGtC t b
    pure (x :: xs)

/-- The loop body of `data-quality-checker.py`'s `validate_numeric_ranges`
when fed the uncoerced table of `load_data_dictionary`: the bounds are
whatever scalars the raw table holds, and `pd.notnull` admits text
bounds. -/
def rangeStepRaw (df : Df) (m : List (String × ℕ)) (e : RawEntry) :
    Except Unit (List (String × ℕ)) :=
  let mn := rawBound e.min_value
  let mx := rawBound e.max_value
  if mn ≠ Cell.null ∧ mx ≠ Cell.null ∧ e.column_name ∈ df.colNames then do
    let lt ← seriesLtC (df.colCells e.column_name) mn
    let gt ← seriesGtC (df.colCells e.column_name) mx
    let n := (lt.zip gt).countP (fun p => p.1 || p.2)
    pure (if n = 0 then m else dictInsert m e.column_name n)
  else pure m

/-- `validate_numeric_ranges` over an uncoerced data dictionary. -/
def validate_numeric_ranges_raw (df : Df) (dd : List RawEntry) :
    Except Unit (List (String × ℕ)) :=
  dd.foldlM (rangeStepRaw df) []

/-- The `DataQualityChecker` object: the dataset and the data dictionary
stored by `__init__`. -/
structure Checker where
  df : Df
  data_dict : List SchemaEntry
deriving DecidableEq

/-- `check_missing_data` as a method: reads `self.df`, writes nothing. -/
def checkMissingS (c : Checker) : List (String × ℚ) × Checker :=
  (check_missing_data c.df, c)

/-- `check_duplicates` as a method: reads `self.df`, writes nothing. -/
def checkDuplicatesS (c : Checker) : List (ℕ × Row) × Checker :=
  (check_duplicates c.df, c)

/-- `validate_data_types` as a method: reads `self.df` and
`self.data_dict`, writes nothing. -/
def validateTypesS (c : Checker) : List (String × TypeRec) × Checker :=
  (validate_data_types c.df c.data_dict, c)

/-- `validate_numeric_ranges` as a method. -/
def validateRangesS (c : Checker) : Except Unit (List (String × ℕ) × Checker) :=
  (validate_numeric_ranges c.df c.data_dict).map (fun r => (r, c))

/-- The four reports produced by one full run. -/
structure AllReports where
  missing : List (String × ℚ)
  dups : List (ℕ × Row)
  types : List (String × TypeRec)
  ranges : List (String × ℕ)
deriving DecidableEq

/-- `main`'s check sequence: the four checks in their fixed order, each
threading the checker state to the next. -/
def runAllChecks (c : Checker) : Except Unit (AllReports × Checker) :=
  let m := checkMissingS c
  let d := checkDuplicatesS m.2
  let t := validateTypesS d.2
  (validateRangesS t.2).map (fun r => (⟨m.1, d.1, t.1, r.1⟩, r.2))

/-- Count of cells strictly below a bound (non-numeric cells excluded). -/
def countBelow (cells : List Cell) (q : ℚ) : ℕ :=
  cells.countP (fun c => match c with
    | Cell.num x => decide (x < q)
    | _ => false)

/-- Count of cells strictly above a bound (non-numeric cells excluded). -/
def countAbove (cells : List Cell) (q : ℚ) : ℕ :=
  cells.countP (fun c => match c with
    | Cell.num x => decide (q < x)
    | _ => false)

/-- The per-cell out-of-range predicate of the code's row mask:
`value < min or value > max`, false on nulls. -/
def cellViol (mn mx : ℚ) (c : Cell) : Bool :=
  match c with
  | Cell.num x => decide (x < mn) || decide (mx < x)
  | _ => false

/-- Count of out-of-range cells of a column. -/
def countViol (cells : List Cell) (mn mx : ℚ) : ℕ :=
  cells.countP (cellViol mn mx)

/-- The flattened mismatch condition of `validate_data_types` for one
schema entry whose column exists: a datetime expectation not met by a
datetime-family column, or a literal tag disagreement otherwise. -/
def typeMismatch (df : Df) (e : SchemaEntry) : Prop :=
  (e.data_type = "datetime" ∧ isDatetimeDtype (df.dtypeOf e.column_name) = false)
  ∨ (e.data_type ≠ "datetime" ∧ df.dtypeOf e.column_name ≠ e.data_type)

instance (df : Df) (e : SchemaEntry) : Decidable (typeMismatch df e) := by
  unfold typeMismatch
  infer_instance

/-- Number of rows equal to a strictly earlier row, relative to a set of
already-seen rows (the counting core of `df.duplicated()`). -/
def dupCount (seen : List Row) : List Row → ℕ
  | [] => 0
  | r :: rest => (if r ∈ seen then 1 else 0) + dupCount (r :: seen) rest

theorem dictLookup_cons {β : Type} (p : String × β) (t : List (String × β))
    (k : String) :
    dictLookup (p :: t) k = if p.1 = k then some p.2 else dictLookup t k := by
  by_cases h : p.1 = k
  · rw [dictLookup, List.find?_cons_of_pos _ (by simpa using h), if_pos h]
    rfl
  · rw [dictLookup, List.find?_cons_of_neg _ (by simpa using h), if_neg h]
    rfl

theorem dictInsert_cons_ne {β : Type} (p : String × β) (t : List (String × β))
    (k : String) (v : β) (h : p.1 ≠ k) :
    dictInsert (p :: t) k v = p :: dictInsert t k v := by
  have hb : (p.1 == k) = false := beq_eq_false_iff_ne.mpr h
  cases hany : (t.any fun q => q.1 == k) with
  | true => simp [dictInsert, hb, hany, h]
  | false => simp [dictInsert, hb, hany]

theorem dictInsert_cons_eq {β : Type} (p : String × β) (t : List (String × β))
    (k : String) (v : β) (h : p.1 = k) :
    dictInsert (p :: t) k v =
      (k, v) :: t.map (fun q => if q.1 = k then (k, v) else q) := by
  have hb : (p.1 == k) = true := beq_iff_eq.mpr h
  simp [dictInsert, hb, h]

theorem dictLookup_map_override {β : Type} (t : List (String × β))
    (k k' : String) (v : β) (h : k ≠ k') :
    dictLookup (t.map (fun q => if q.1 = k then (k, v) else q)) k' =
      dictLookup t k' := by
  induction t with
  | nil => rfl
  | cons p t ih =>
    by_cases hp : p.1 = k
    · rw [List.map_cons, if_pos hp, dictLookup_cons, dictLookup_cons, if_neg h,
        if_neg (hp ▸ h), ih]
    · rw [List.map_cons, if_neg hp, dictLookup_cons, dictLookup_cons, ih]

theorem dictLookup_dictInsert {β : Type} (m : List (String × β)) (k : String)
    (v : β) (k' : String) :
    dictLookup (dictInsert m k v) k' =
      if k = k' then some v else dictLookup m k' := by
  induction m with
  | nil =>
    show dictLookup [(k, v)] k' = _
    rw [dictLookup_cons]
  | cons p t ih =>
    by_cases hp : p.1 = k
    · rw [dictInsert_cons_eq _ _ _ _ hp, dictLookup_cons]
      by_cases hk : k = k'
      · rw [if_pos hk, if_pos hk]
      · rw [if_neg hk, if_neg hk, dictLookup_map_override _ _ _ _ hk,
          dictLookup_cons, if_neg (hp ▸ hk)]
    · rw [dictInsert_cons_ne _ _ _ _ hp, dictLookup_cons, dictLookup_cons]
      by_cases hk : k = k'
      · rw [if_pos hk, if_neg (hk ▸ hp), ih, if_pos hk]
      · rw [ih]
        simp [hk]

theorem typeStep_not_col (df : Df) (m : List (String × TypeRec))
    (e : SchemaEntry) (h : e.column_name ∉ df.colNames) :
    typeStep df m e = m := by
  simp [typeStep, h]

theorem typeStep_characterization (df : Df) (m : List (String × TypeRec))
    (e : SchemaEntry) (h : e.column_name ∈ df.colNames) :
    typeStep df m e =
      if typeMismatch df e then
        dictInsert m e.column_name ⟨e.data_type, df.dtypeOf e.column_name⟩
      else m := by
  by_cases hdt : e.data_type = "datetime"
  · by_cases hfam : isDatetimeDtype (df.dtypeOf e.column_name) = true
    · have hnm : ¬ typeMismatch df e := by simp [typeMismatch, hdt, hfam]
      simp [typeStep, h, hdt, hfam, hnm]
    · have hm : typeMismatch df e := Or.inl ⟨hdt, by simpa using hfam⟩
      simp [typeStep, h, hdt, hfam, hm]
  · by_cases hne : df.dtypeOf e.column_name = e.data_type
    · have hnm : ¬ typeMismatch df e := by simp [typeMismatch, hdt, hne]
      simp [typeStep, h, hdt, hne, hnm]
    · have hm : typeMismatch df e := Or.inr ⟨hdt, hne⟩
      simp [typeStep, h, hdt, hne, hm]

theorem validate_data_types_append (df : Df) (dd₁ dd₂ : List SchemaEntry) :
    validate_data_types df (dd₁ ++ dd₂) =
      dd₂.foldl (typeStep df) (validate_data_types df dd₁) :=
  List.foldl_append _ _ _ _

/-- C3: for every schema entry whose column exists in the dataset,
`validate_data_types` records a mismatch for that column iff either the
expected type is `"datetime"` and the column's type is not in the
datetime family, or the expected type is not `"datetime"` and the
expected tag differs (case-sensitive, no aliasing) from the column's
literal type tag; the record carries the expected tag and the column's
literal tag as actual, and when the tags agree under this rule the entry
records nothing (the report map is left unchanged). -/
theorem claim3_type_mismatch_rule (df : Df) (e : SchemaEntry)
    (h : e.column_name ∈ df.colNames) :
    (∀ m, typeStep df m e =
      if typeMismatch df e then
        dictInsert m e.column_name ⟨e.data_type, df.dtypeOf e.column_name⟩
      else m)
    ∧ (∀ dd, validate_data_types df (dd ++ [e]) =
        if typeMismatch df e then
          dictInsert (validate_data_types df dd) e.column_name
            ⟨e.data_type, df.dtypeOf e.column_name⟩
        else validate_data_types df dd) := by
  refine ⟨fun m => typeStep_characterization df m e h, fun dd => ?_⟩
  rw [validate_data_types_append, List.foldl_cons, List.foldl_nil,
    typeStep_characterization df _ e h]

/-- Witness for C3 at a concrete dataset and entry: an `int64` expectation
against a `float64` column is recorded with those very tags. -/
theorem claim3_witness :
    typeStep ⟨["a"], ["float64"], []⟩ [] ⟨"a", "int64", none, none⟩ =
      if typeMismatch ⟨["a"], ["float64"], []⟩ ⟨"a", "int64", none, none⟩ then
        dictInsert [] "a" ⟨"int64", "float64"⟩
      else [] :=
  (claim3_type_mismatch_rule ⟨["a"], ["float64"], []⟩
    ⟨"a", "int64", none, none⟩ (by decide)).1 []

/-- C8: in `validate_data_types`, a later schema entry naming a column
already examined overwrites the earlier record when it mismatches
(last-write-wins), while a later matching entry leaves the report exactly
as it was — in particular it never deletes an earlier mismatch record. -/
theorem claim8_last_write_wins (df : Df) (e : SchemaEntry)
    (h : e.column_name ∈ df.colNames) (dd : List SchemaEntry) :
    (typeMismatch df e →
      dictLookup (validate_data_types df (dd ++ [e])) e.column_name =
        some ⟨e.data_type, df.dtypeOf e.column_name⟩)
    ∧ (¬ typeMismatch df e →
      validate_data_types df (dd ++ [e]) = validate_data_types df dd) := by
  have hstep : validate_data_types df (dd ++ [e]) =
      typeStep df (validate_data_types df dd) e := by
    rw [validate_data_types_append, List.foldl_cons, List.foldl_nil]
  constructor
  · intro hm
    rw [hstep, typeStep_characterization df _ e h, if_pos hm,
      dictLookup_dictInsert, if_pos rfl]
  · intro hm
    rw [hstep, typeStep_characterization df _ e h, if_neg hm]

/-- Witness for C8: with two entries for column `a`, the mismatching later
entry's record (expected `int64`) is what the final report holds. -/
theorem claim8_witness :
    dictLookup
      (validate_data_types ⟨["a"], ["float64"], []⟩
        ([⟨"a", "object", none, none⟩] ++ [⟨"a", "int64", none, none⟩])) "a" =
      some ⟨"int64", "float64"⟩ :=
  (claim8_last_write_wins ⟨["a"], ["float64"], []⟩ ⟨"a", "int64", none, none⟩
    (by decide) [⟨"a", "object", none, none⟩]).1 (by decide)

/-- C9: running the four checks is idempotent — each check reads the
dataset and schema and mutates neither, so a successful run leaves the
checker state unchanged and a repeated run returns identical reports. -/
theorem claim9_checks_idempotent (c : Checker) (r : AllReports) (c' : Checker)
    (h : runAllChecks c = Except.ok (r, c')) :
    c' = c ∧ runAllChecks c' = Except.ok (r, c') := by
  simp only [runAllChecks, checkMissingS, checkDuplicatesS, validateTypesS,
    validateRangesS] at h ⊢
  cases hv : validate_numeric_ranges c.df c.data_dict with
  | error u => rw [hv] at h; simp [Except.map] at h
  | ok rr =>
    rw [hv] at h
    simp only [Except.map] at h
    have hp := Except.ok.inj h
    have hc : c' = c := (congrArg Prod.snd hp).symm
    subst hc
    refine ⟨rfl, ?_⟩
    rw [hv]
    simp only [Except.map]
    exact congrArg Except.ok hp

/-- Witness for C9 at a concrete one-row checker: the run succeeds with
empty reports, returns the checker unchanged, and repeats identically. -/
theorem claim9_witness :
    ((⟨⟨["x"], ["int64"], [[Cell.num 1]]⟩, []⟩ : Checker) =
      ⟨⟨["x"], ["int64"], [[Cell.num 1]]⟩, []⟩)
    ∧ runAllChecks ⟨⟨["x"], ["int64"], [[Cell.num 1]]⟩, []⟩ =
        Except.ok (⟨[], [], [], []⟩, ⟨⟨["x"], ["int64"], [[Cell.num 1]]⟩, []⟩) :=
  claim9_checks_idempotent ⟨⟨["x"], ["int64"], [[Cell.num 1]]⟩, []⟩
    ⟨[], [], [], []⟩ ⟨⟨["x"], ["int64"], [[Cell.num 1]]⟩, []⟩
    (by with_unfolding_all decide)

theorem pure_eq_ok {ε α : Type} (a : α) : (pure a : Except ε α) = Except.ok a :=
  rfl

theorem ebind_ok {ε α β : Type} (a : α) (f : α → Except ε β) :
    (Except.ok a : Except ε α) >>= f = f a :=
  rfl

theorem ebind_error {ε α β : Type} (u : ε) (f : α → Except ε β) :
    (Except.error u : Except ε α) >>= f = Except.error u :=
  rfl

theorem rangeStep_not_col (df : Df) (m : List (String × ℕ)) (e : SchemaEntry)
    (h : e.column_name ∉ df.colNames) :
    rangeStep df m e = Except.ok m := by
  cases hmn : e.min_value <;> cases hmx : e.max_value <;>
    simp [rangeStep, hmn, hmx, h, pure_eq_ok]

theorem rangeStep_skip_none_bound (df : Df) (m : List (String × ℕ))
    (e : SchemaEntry) (h : e.min_value = none ∨ e.max_value = none) :
    rangeStep df m e = Except.ok m := by
  rcases h with hn | hn
  · cases hx : e.max_value <;> simp [rangeStep, hn, hx, pure_eq_ok]
  · cases hx : e.min_value <;> simp [rangeStep, hn, hx, pure_eq_ok]

theorem rangeStep_preserves (df : Df) (m m' : List (String × ℕ))
    (e : SchemaEntry) (c : String) (h : rangeStep df m e = Except.ok m')
    (hor : e.column_name ≠ c ∨ e.column_name ∉ df.colNames) :
    dictLookup m' c = dictLookup m c := by
  rcases hor with hne | hnc
  · cases hmn : e.min_value with
    | none =>
      rw [rangeStep_skip_none_bound df m e (Or.inl hmn)] at h
      rw [Except.ok.inj h]
    | some mn =>
      cases hmx : e.max_value with
      | none =>
        rw [rangeStep_skip_none_bound df m e (Or.inr hmx)] at h
        rw [Except.ok.inj h]
      | some mx =>
        by_cases hcol : e.column_name ∈ df.colNames
        · simp only [rangeStep, hmn, hmx, if_pos hcol] at h
          cases hlt : seriesLt (df.colCells e.column_name) mn with
          | error u =>
            rw [hlt, ebind_error] at h
            exact Except.noConfusion h
          | ok lt =>
            rw [hlt, ebind_ok] at h
            cases hgt : seriesGt (df.colCells e.column_name) mx with
            | error u =>
              rw [hgt, ebind_error] at h
              exact Except.noConfusion h
            | ok gt =>
              rw [hgt, ebind_ok, pure_eq_ok] at h
              rw [← Except.ok.inj h]
              split
              · rfl
              · rw [dictLookup_dictInsert, if_neg hne]
        · rw [rangeStep_not_col df m e hcol] at h
          rw [Except.ok.inj h]
  · rw [rangeStep_not_col df m e hnc] at h
    rw [Except.ok.inj h]

theorem rangeFold_preserves (df : Df) (c : String) :
    ∀ (dd : List SchemaEntry) (m r : List (String × ℕ)),
    dd.foldlM (rangeStep df) m = Except.ok r →
    (∀ e ∈ dd, e.column_name ≠ c ∨ e.column_name ∉ df.colNames) →
    dictLookup r c = dictLookup m c := by
  intro dd
  induction dd with
  | nil =>
    intro m r h _
    rw [List.foldlM_nil, pure_eq_ok] at h
    rw [Except.ok.inj h]
  | cons e t ih =>
    intro m r h hall
    rw [List.foldlM_cons] at h
    cases hstep : rangeStep df m e with
    | error u =>
      rw [hstep, ebind_error] at h
      exact Except.noConfusion h
    | ok m1 =>
      rw [hstep, ebind_ok] at h
      rw [ih m1 r h (fun x hx => hall x (List.mem_cons_of_mem _ hx)),
        rangeStep_preserves df m m1 e c hstep (hall e (List.mem_cons_self e t))]

theorem typeStep_preserves (df : Df) (m : List (String × TypeRec))
    (e : SchemaEntry) (c : String) (hc : c ∉ df.colNames) :
    dictLookup (typeStep df m e) c = dictLookup m c := by
  by_cases h : e.column_name ∈ df.colNames
  · have hne : e.column_name ≠ c := fun he => hc (he ▸ h)
    rw [typeStep_characterization df m e h]
    split
    · rw [dictLookup_dictInsert, if_neg hne]
    · rfl
  · rw [typeStep_not_col df m e h]

theorem typeFold_preserves (df : Df) (c : String) (hc : c ∉ df.colNames) :
    ∀ (dd : List SchemaEntry) (m : List (String × TypeRec)),
    dictLookup (dd.foldl (typeStep df) m) c = dictLookup m c := by
  intro dd
  induction dd with
  | nil => intro m; rfl
  | cons e t ih =>
    intro m
    rw [List.foldl_cons, ih, typeStep_preserves df m e c hc]

theorem mem_missing_names (df : Df) (p : String × ℚ)
    (h : p ∈ check_missing_data df) : p.1 ∈ df.colNames := by
  unfold check_missing_data at h
  have h1 : p ∈ (missingSummary df).filter (fun q => decide (0 < q.2)) :=
    (List.perm_insertionSort pctGe _).mem_iff.mp h
  have h2 : p ∈ missingSummary df := (List.mem_filter.mp h1).1
  obtain ⟨a, ha, hap⟩ := List.mem_map.mp h2
  have : df.colNames[a.1]? = some a.2 := List.mem_enum_iff_getElem?.mp ha
  have hmem : a.2 ∈ df.colNames := List.getElem?_mem this
  rw [← hap]
  exact hmem

/-- C7: a schema entry naming a column absent from the dataset is
silently skipped by every check — removing it changes neither the type
report nor the range report, the absent column never appears in any
report, and the entry raises no error. -/
theorem claim7_unknown_column_skipped (df : Df) (e : SchemaEntry)
    (h : e.column_name ∉ df.colNames) :
    (∀ s t, validate_data_types df (s ++ e :: t) =
      validate_data_types df (s ++ t))
    ∧ (∀ s t, validate_numeric_ranges df (s ++ e :: t) =
        validate_numeric_ranges df (s ++ t))
    ∧ (∀ dd, dictLookup (validate_data_types df dd) e.column_name = none)
    ∧ (∀ dd r, validate_numeric_ranges df dd = Except.ok r →
        dictLookup r e.column_name = none)
    ∧ (∀ q : ℚ, (e.column_name, q) ∉ check_missing_data df) := by
  refine ⟨fun s t => ?_, fun s t => ?_, fun dd => ?_, fun dd r hr => ?_,
    fun q hq => h (mem_missing_names df (e.column_name, q) hq)⟩
  · unfold validate_data_types
    rw [List.foldl_append, List.foldl_append, List.foldl_cons,
      typeStep_not_col df _ e h]
  · unfold validate_numeric_ranges
    rw [List.foldlM_append, List.foldlM_append]
    refine bind_congr (fun b => ?_)
    rw [List.foldlM_cons, rangeStep_not_col df b e h, ebind_ok]
  · unfold validate_data_types
    rw [typeFold_preserves df e.column_name h dd []]
    rfl
  · rw [rangeFold_preserves df e.column_name dd [] r hr
      (fun x _ =>
        if hx : x.column_name = e.column_name then
          Or.inr (by rw [hx]; exact h)
        else Or.inl hx)]
    rfl

/-- Witness for C7: an entry naming `unknown_col`, absent from a dataset
with column `x`, changes nothing in either schema-driven check and never
appears in the type report. -/
theorem claim7_witness :
    (validate_data_types ⟨["x"], ["int64"], []⟩
        ([] ++ ⟨"unknown_col", "int64", some 0, some 10⟩ :: []) =
      validate_data_types ⟨["x"], ["int64"], []⟩ ([] ++ []))
    ∧ (validate_numeric_ranges ⟨["x"], ["int64"], []⟩
        ([] ++ ⟨"unknown_col", "int64", some 0, some 10⟩ :: []) =
      validate_numeric_ranges ⟨["x"], ["int64"], []⟩ ([] ++ []))
    ∧ dictLookup (validate_data_types ⟨["x"], ["int64"], []⟩
        [⟨"unknown_col", "int64", some 0, some 10⟩]) "unknown_col" = none := by
  have h := claim7_unknown_column_skipped ⟨["x"], ["int64"], []⟩
    ⟨"unknown_col", "int64", some 0, some 10⟩ (by decide)
  exact ⟨h.1 [] [], h.2.1 [] [],
    h.2.2.1 [⟨"unknown_col", "int64", some 0, some 10⟩]⟩

theorem rangeFold_all_skip (df : Df) :
    ∀ (dd : List SchemaEntry) (m : List (String × ℕ)),
    (∀ e ∈ dd, e.min_value = none ∨ e.max_value = none) →
    dd.foldlM (rangeStep df) m = Except.ok m := by
  intro dd
  induction dd with
  | nil => intro m _; rfl
  | cons e t ih =>
    intro m hall
    rw [List.foldlM_cons,
      rangeStep_skip_none_bound df m e (hall e (List.mem_cons_self e t)),
      ebind_ok, ih m (fun x hx => hall x (List.mem_cons_of_mem _ hx))]

/-- The coercing loaders (`quality_checker.py`'s `load_data_dict` and
`load_data_dictionary`, and `data-quality-checker.py`'s unused
`load_data_dict`) are total on a readable raw table, coerce both bounds
of every row, and an entry left with an absent bound is excluded from
range checking without error. -/
theorem load_data_dict_silent_degrade (raw : List RawEntry) (r : RawEntry) :
    ((load_data_dict raw).length = raw.length)
    ∧ ((loadEntry r).min_value = r.min_value.bind parseNum)
    ∧ ((loadEntry r).max_value = r.max_value.bind parseNum)
    ∧ ((loadEntry r).min_value = none ∨ (loadEntry r).max_value = none →
        ∀ df m, rangeStep df m (loadEntry r) = Except.ok m)
    ∧ (∀ df, (∀ e ∈ load_data_dict raw,
          e.min_value = none ∨ e.max_value = none) →
        validate_numeric_ranges df (load_data_dict raw) = Except.ok []) :=
  ⟨List.length_map _ _, rfl, rfl,
    fun h df m => rangeStep_skip_none_bound df m _ h,
    fun df hall => rangeFold_all_skip df _ [] hall⟩

/-- C6 (code bug): the loader that `data-quality-checker.py`'s `main`
actually calls (`load_data_dictionary`, one of the claim's cited
sources) returns the raw table with no bound coercion, so a value that
fails numeric coercion does not become absent: it survives as text,
passes the `notnull` guard, and makes the subsequent range check raise
a `TypeError` instead of silently excluding the column — while the
coercing loader `load_data_dict` of `quality_checker.py` turns the same
bound into an absent one exactly as the claim describes. -/
theorem claim6_uncoerced_loader_raises :
    load_data_dictionary [⟨"score", "int64", some "abc", some "xyz"⟩] =
      [⟨"score", "int64", some "abc", some "xyz"⟩]
    ∧ rawBound (some "abc") = Cell.str "abc"
    ∧ validate_numeric_ranges_raw ⟨["score"], ["int64"], [[Cell.num 50]]⟩
        (load_data_dictionary [⟨"score", "int64", some "abc", some "xyz"⟩]) =
      Except.error ()
    ∧ (load_data_dict [⟨"score", "int64", some "abc", some "xyz"⟩]).map
        SchemaEntry.min_value = [none] := by
  refine ⟨rfl, ?_, ?_, ?_⟩
  · with_unfolding_all decide
  · with_unfolding_all decide
  · with_unfolding_all decide

theorem missingPct_nonneg (df : Df) (i : ℕ) : 0 ≤ missingPct df i := by
  unfold missingPct
  positivity

theorem missingPct_le_100 (df : Df) (i : ℕ) : missingPct df i ≤ 100 := by
  unfold missingPct
  rcases Nat.eq_zero_or_pos df.rows.length with h0 | hpos
  · rw [h0]
    norm_num
  · have hk : (df.cellsAt i).countP (fun c => decide (c = Cell.null)) ≤
        df.rows.length := by
      have h := List.countP_le_length
        (p := fun c => decide (c = Cell.null)) (l := df.cellsAt i)
      simpa [Df.cellsAt] using h
    have hq : ((df.cellsAt i).countP (fun c => decide (c = Cell.null)) : ℚ) /
        (df.rows.length : ℚ) ≤ 1 := by
      rw [div_le_one (by exact_mod_cast hpos)]
      exact_mod_cast hk
    linarith

/-- C1 (amended): the missing-data report contains exactly the columns of
the dataset summary whose missing percentage is strictly positive (a
column with 0 percent missing is never included, one above 0 never
omitted), every reported percentage lies in (0, 100], and the report is
ordered by descending percentage; the percentages are, however, the exact
fractions, not values rounded to 2 decimals. -/
theorem claim1_missing_report (df : Df) :
    (∀ p : String × ℚ, p ∈ check_missing_data df ↔
      p ∈ missingSummary df ∧ 0 < p.2)
    ∧ (∀ p : String × ℚ, p ∈ check_missing_data df → 0 < p.2 ∧ p.2 ≤ 100)
    ∧ List.Sorted pctGe (check_missing_data df) := by
  have hmem : ∀ p : String × ℚ, p ∈ check_missing_data df ↔
      p ∈ missingSummary df ∧ 0 < p.2 := by
    intro p
    unfold check_missing_data
    rw [(List.perm_insertionSort pctGe _).mem_iff, List.mem_filter]
    simp
  refine ⟨hmem, fun p hp => ?_, ?_⟩
  · obtain ⟨hs, hpos⟩ := (hmem p).mp hp
    refine ⟨hpos, ?_⟩
    obtain ⟨a, ha, hap⟩ := List.mem_map.mp hs
    rw [← hap]
    exact missingPct_le_100 df a.1
  · haveI : IsTotal (String × ℚ) pctGe := ⟨fun a b => le_total b.2 a.2⟩
    haveI : IsTrans (String × ℚ) pctGe := ⟨fun a b c h1 h2 => le_trans h2 h1⟩
    exact List.sorted_insertionSort pctGe _

/-- C1 counterexample: a three-row column with one null is reported with
percentage exactly 100/3, and 100/3 scaled by 100 is not an integer, so
the reported percentage is not a number rounded to 2 decimals. -/
theorem claim1_counterexample :
    check_missing_data ⟨["a"], ["float64"],
        [[Cell.null], [Cell.num 1], [Cell.num 2]]⟩ = [("a", 100 / 3)]
    ∧ (((100 : ℚ) / 3) * 100).den ≠ 1 := by
  constructor
  · with_unfolding_all decide
  · with_unfolding_all decide

/-- Witness for C1 at the three-row dataset: the reported percentage
100/3 is strictly positive and at most 100. -/
theorem claim1_witness :
    0 < ((100 : ℚ) / 3) ∧ ((100 : ℚ) / 3) ≤ 100 :=
  (claim1_missing_report ⟨["a"], ["float64"],
      [[Cell.null], [Cell.num 1], [Cell.num 2]]⟩).2.1
    ("a", 100 / 3) (by with_unfolding_all decide)

theorem dupCount_toFinset : ∀ (l seen : List Row),
    dupCount seen l + (l.toFinset \ seen.toFinset).card = l.length := by
  intro l
  induction l with
  | nil => intro seen; simp [dupCount]
  | cons r t ih =>
    intro seen
    by_cases hr : r ∈ seen
    · have h1 : (r :: t).toFinset \ seen.toFinset =
          t.toFinset \ seen.toFinset := by
        rw [List.toFinset_cons]
        exact Finset.insert_sdiff_of_mem _ (List.mem_toFinset.mpr hr)
      have h2 : dupCount seen (r :: t) = 1 + dupCount (r :: seen) t := by
        simp [dupCount, hr]
      have h3 := ih (r :: seen)
      rw [List.toFinset_cons,
        Finset.insert_eq_self.mpr (List.mem_toFinset.mpr hr)] at h3
      rw [h1, h2, List.length_cons]
      omega
    · have h2 : dupCount seen (r :: t) = dupCount (r :: seen) t := by
        simp [dupCount, hr]
      have h3 := ih (r :: seen)
      have h4 : (r :: t).toFinset \ seen.toFinset =
          insert r (t.toFinset \ seen.toFinset) := by
        rw [List.toFinset_cons]
        exact Finset.insert_sdiff_of_not_mem _
          (fun hm => hr (List.mem_toFinset.mp hm))
      have h5 : t.toFinset \ (r :: seen).toFinset =
          (t.toFinset \ seen.toFinset).erase r := by
        rw [List.toFinset_cons, Finset.sdiff_insert]
      have h6 : (insert r (t.toFinset \ seen.toFinset)).card =
          ((t.toFinset \ seen.toFinset).erase r).card + 1 := by
        by_cases hx : r ∈ t.toFinset \ seen.toFinset
        · rw [Finset.insert_eq_self.mpr hx, Finset.card_erase_of_mem hx]
          have hpos : 0 < (t.toFinset \ seen.toFinset).card :=
            Finset.card_pos.mpr ⟨r, hx⟩
          omega
        · rw [Finset.card_insert_of_not_mem hx, Finset.erase_eq_of_not_mem hx]
      rw [h2, h4, h6, ← h5, List.length_cons]
      omega

theorem dup_filter_bridge (full : List Row) :
    ∀ (l pre seen : List Row), full = pre ++ l →
    (∀ x : Row, x ∈ seen ↔ x ∈ pre) →
    ((l.enumFrom pre.length).filter
      (fun p => decide (p.2 ∈ full.take p.1))).length = dupCount seen l := by
  intro l
  induction l with
  | nil => intro pre seen _ _; simp [dupCount]
  | cons r t ih =>
    intro pre seen hfull hiff
    have htake : full.take pre.length = pre := by
      rw [hfull]
      exact List.take_left pre (r :: t)
    have hfull' : full = (pre ++ [r]) ++ t := by
      rw [hfull, List.append_assoc]
      rfl
    have hiff' : ∀ x : Row, x ∈ r :: seen ↔ x ∈ pre ++ [r] := by
      intro x
      rw [List.mem_cons, List.mem_append, List.mem_singleton, hiff x]
      tauto
    have hlen : (pre ++ [r]).length = pre.length + 1 := by
      simp
    have hih := ih (pre ++ [r]) (r :: seen) hfull' hiff'
    rw [hlen] at hih
    rw [List.enumFrom_cons, List.filter_cons]
    by_cases hr : r ∈ seen
    · have hrpre : r ∈ pre := (hiff r).mp hr
      have hcond : decide (((pre.length, r) : ℕ × Row).2 ∈
          full.take ((pre.length, r) : ℕ × Row).1) = true := by
        simp [htake, hrpre]
      rw [hcond, if_pos rfl, List.length_cons, hih]
      simp [dupCount, hr]
      omega
    · have hrpre : r ∉ pre := fun hm => hr ((hiff r).mpr hm)
      have hcond : decide (((pre.length, r) : ℕ × Row).2 ∈
          full.take ((pre.length, r) : ℕ × Row).1) = false := by
        simp [htake, hrpre]
      rw [hcond]
      simp only [Bool.false_eq_true, if_false]
      rw [hih]
      simp [dupCount, hr]

theorem pairwise_fst_lt_enumFrom {α : Type} : ∀ (l : List α) (n : ℕ),
    (l.enumFrom n).Pairwise (fun a b => a.1 < b.1) := by
  intro l
  induction l with
  | nil => intro n; exact List.Pairwise.nil
  | cons a t ih =>
    intro n
    rw [List.enumFrom_cons]
    refine List.Pairwise.cons (fun b hb => ?_) (ih (n + 1))
    rcases b with ⟨i, x⟩
    have h := List.mk_mem_enumFrom_iff_le_and_getElem?_sub.mp hb
    exact lt_of_lt_of_le (Nat.lt_succ_self n) h.1

/-- C2: the duplicate report has exactly `len(D) - distinct(D)` rows,
every reported row has a strictly earlier occurrence (so no first
occurrence is ever reported), the reported pairs carry the original rows
at their original indices, and the report is in ascending original-index
order. -/
theorem claim2_duplicate_report (df : Df) :
    ((check_duplicates df).length + df.rows.toFinset.card = df.rows.length)
    ∧ ((check_duplicates df).length =
        df.rows.length - df.rows.toFinset.card)
    ∧ (∀ p : ℕ × Row, p ∈ check_duplicates df →
        df.rows[p.1]? = some p.2 ∧ ∃ j < p.1, df.rows[j]? = some p.2)
    ∧ (check_duplicates df).Pairwise (fun a b => a.1 < b.1) := by
  have hb : (check_duplicates df).length = dupCount [] df.rows :=
    dup_filter_bridge df.rows df.rows [] [] rfl (fun x => by simp)
  have hc := dupCount_toFinset df.rows []
  rw [List.toFinset_nil, Finset.sdiff_empty] at hc
  have hlen : (check_duplicates df).length + df.rows.toFinset.card =
      df.rows.length := by
    rw [hb]
    exact hc
  refine ⟨hlen, by omega, fun p hp => ?_, ?_⟩
  · have h1 := List.mem_filter.mp hp
    have h2 : df.rows[p.1]? = some p.2 :=
      List.mem_enum_iff_getElem?.mp h1.1
    have h3 : p.2 ∈ df.rows.take p.1 := by
      simpa using h1.2
    obtain ⟨j, hj, hget⟩ := List.getElem_of_mem h3
    have hjlt : j < p.1 :=
      lt_of_lt_of_le hj (by simp [List.length_take])
    refine ⟨h2, j, hjlt, ?_⟩
    rw [← List.getElem?_take_of_lt hjlt, List.getElem?_eq_getElem hj]
    exact congrArg some hget
  · have hsub : List.Sublist (check_duplicates df) df.rows.enum :=
      List.filter_sublist _
    exact List.Pairwise.sublist hsub (pairwise_fst_lt_enumFrom df.rows 0)

/-- Witness for C2: in a three-row dataset whose third row repeats the
first, the reported duplicate sits at index 2 and has an earlier equal
row. -/
theorem claim2_witness :
    (⟨["x", "y"], ["int64", "int64"],
      [[Cell.num 1, Cell.num 2], [Cell.num 3, Cell.num 4],
       [Cell.num 1, Cell.num 2]]⟩ : Df).rows[(2 : ℕ)]? =
        some [Cell.num 1, Cell.num 2]
    ∧ ∃ j < 2, (⟨["x", "y"], ["int64", "int64"],
      [[Cell.num 1, Cell.num 2], [Cell.num 3, Cell.num 4],
       [Cell.num 1, Cell.num 2]]⟩ : Df).rows[j]? =
        some [Cell.num 1, Cell.num 2] :=
  (claim2_duplicate_report ⟨["x", "y"], ["int64", "int64"],
      [[Cell.num 1, Cell.num 2], [Cell.num 3, Cell.num 4],
       [Cell.num 1, Cell.num 2]]⟩).2.2.1
    (2, [Cell.num 1, Cell.num 2]) (by with_unfolding_all decide)

theorem countViol_eq_add (cells : List Cell) (mn mx : ℚ) (h : mn ≤ mx) :
    countViol cells mn mx = countBelow cells mn + countAbove cells mx := by
  induction cells with
  | nil => rfl
  | cons c t ih =>
    unfold countViol countBelow countAbove at *
    rw [List.countP_cons, List.countP_cons, List.countP_cons, ih]
    cases c with
    | null => simp [cellViol]
    | str s => simp [cellViol]
    | num x =>
      by_cases h1 : x < mn
      · have h2 : ¬ mx < x := fun hx => absurd h (not_le.mpr (hx.trans h1))
        simp [cellViol, h1, h2]
        omega
      · by_cases h2 : mx < x
        · simp [cellViol, h1, h2]
          omega
        · simp [cellViol, h1, h2]

theorem zip_countP_viol : ∀ (cells : List Cell) (mn mx : ℚ)
    (lt gt : List Bool),
    seriesLt cells mn = Except.ok lt → seriesGt cells mx = Except.ok gt →
    (lt.zip gt).countP (fun p => p.1 || p.2) = countViol cells mn mx := by
  intro cells
  induction cells with
  | nil =>
    intro mn mx lt gt hlt hgt
    rw [show seriesLt [] mn = Except.ok [] from rfl] at hlt
    rw [show seriesGt [] mx = Except.ok [] from rfl] at hgt
    rw [← Except.ok.inj hlt, ← Except.ok.inj hgt]
    rfl
  | cons c t ih =>
    intro mn mx lt gt hlt hgt
    simp only [seriesLt] at hlt
    simp only [seriesGt] at hgt
    cases c with
    | str s =>
      rw [show cellLt (Cell.str s) mn = Except.error () from rfl,
        ebind_error] at hlt
      exact Except.noConfusion hlt
    | null =>
      rw [show cellLt Cell.null mn = Except.ok false from rfl, ebind_ok] at hlt
      rw [show cellGt Cell.null mx = Except.ok false from rfl, ebind_ok] at hgt
      cases hts : seriesLt t mn with
      | error u => rw [hts, ebind_error] at hlt; exact Except.noConfusion hlt
      | ok lts =>
        cases hgs : seriesGt t mx with
        | error u => rw [hgs, ebind_error] at hgt; exact Except.noConfusion hgt
        | ok gts =>
          rw [hts, ebind_ok, pure_eq_ok] at hlt
          rw [hgs, ebind_ok, pure_eq_ok] at hgt
          rw [← Except.ok.inj hlt, ← Except.ok.inj hgt, List.zip_cons_cons,
            List.countP_cons, ih mn mx lts gts hts hgs]
          unfold countViol
          rw [List.countP_cons]
          rfl
    | num x =>
      rw [show cellLt (Cell.num x) mn = Except.ok (decide (x < mn)) from rfl,
        ebind_ok] at hlt
      rw [show cellGt (Cell.num x) mx = Except.ok (decide (mx < x)) from rfl,
        ebind_ok] at hgt
      cases hts : seriesLt t mn with
      | error u => rw [hts, ebind_error] at hlt; exact Except.noConfusion hlt
      | ok lts =>
        cases hgs : seriesGt t mx with
        | error u => rw [hgs, ebind_error] at hgt; exact Except.noConfusion hgt
        | ok gts =>
          rw [hts, ebind_ok, pure_eq_ok] at hlt
          rw [hgs, ebind_ok, pure_eq_ok] at hgt
          rw [← Except.ok.inj hlt, ← Except.ok.inj hgt, List.zip_cons_cons,
            List.countP_cons, ih mn mx lts gts hts hgs]
          unfold countViol
          rw [List.countP_cons]
          rfl

theorem rangeFold_main (df : Df) (e : SchemaEntry) (mn mx : ℚ)
    (hmin : e.min_value = some mn) (hmax : e.max_value = some mx)
    (hcol : e.column_name ∈ df.colNames) :
    ∀ (dd : List SchemaEntry) (m r : List (String × ℕ)),
    dd.foldlM (rangeStep df) m = Except.ok r →
    dd.filter (fun x => x.column_name == e.column_name) = [e] →
    dictLookup m e.column_name = none →
    dictLookup r e.column_name =
      (if countViol (df.colCells e.column_name) mn mx = 0 then none
       else some (countViol (df.colCells e.column_name) mn mx)) := by
  intro dd
  induction dd with
  | nil =>
    intro m r h hf hm
    exact absurd hf (by simp)
  | cons x t ih =>
    intro m r h hf hm
    rw [List.foldlM_cons] at h
    cases hstep : rangeStep df m x with
    | error u =>
      rw [hstep, ebind_error] at h
      exact Except.noConfusion h
    | ok m1 =>
      rw [hstep, ebind_ok] at h
      rw [List.filter_cons] at hf
      cases hxb : (x.column_name == e.column_name) with
      | true =>
        rw [hxb, if_pos rfl] at hf
        have hxe : x = e := (List.cons.inj hf).1
        have hft : t.filter (fun y => y.column_name == e.column_name) = [] :=
          (List.cons.inj hf).2
        subst hxe
        simp only [rangeStep, hmin, hmax, if_pos hcol] at hstep
        cases hlt : seriesLt (df.colCells x.column_name) mn with
        | error u =>
          rw [hlt, ebind_error] at hstep
          exact Except.noConfusion hstep
        | ok lt =>
          rw [hlt, ebind_ok] at hstep
          cases hgt : seriesGt (df.colCells x.column_name) mx with
          | error u =>
            rw [hgt, ebind_error] at hstep
            exact Except.noConfusion hstep
          | ok gt =>
            rw [hgt, ebind_ok, pure_eq_ok] at hstep
            have hm1 : m1 = if (lt.zip gt).countP (fun p => p.1 || p.2) = 0
                then m
                else dictInsert m x.column_name
                  ((lt.zip gt).countP (fun p => p.1 || p.2)) :=
              (Except.ok.inj hstep).symm
            have hn := zip_countP_viol (df.colCells x.column_name) mn mx
              lt gt hlt hgt
            have hr : dictLookup r x.column_name =
                dictLookup m1 x.column_name :=
              rangeFold_preserves df x.column_name t m1 r h
                (fun y hy => Or.inl (by
                  have := List.filter_eq_nil_iff.mp hft y hy
                  simpa using this))
            rw [hr, hm1, hn]
            by_cases h0 : countViol (df.colCells x.column_name) mn mx = 0
            · rw [if_pos h0, if_pos h0]
              exact hm
            · rw [if_neg h0, if_neg h0, dictLookup_dictInsert, if_pos rfl]
      | false =>
        rw [hxb] at hf
        simp only [Bool.false_eq_true, if_false] at hf
        have hne : x.column_name ≠ e.column_name := by
          simpa using hxb
        have hm1 : dictLookup m1 e.column_name = none := by
          rw [rangeStep_preserves df m m1 x e.column_name hstep (Or.inl hne)]
          exact hm
        exact ih m1 r h hf hm1

/-- C4 (amended): for a schema entry with both bounds present whose
column exists (and is the only entry for that column), the reported count
is the number of non-null cells strictly below the minimum or strictly
above the maximum, with a zero count omitted from the report; when
`min ≤ max` this count equals `count(value < min) + count(value > max)`
and boundary-equal values and nulls are never counted — but when
`min > max` a row can satisfy both comparisons at once, so the two-sum
formula of the original claim overcounts. -/
theorem claim4_range_count (df : Df) (dd : List SchemaEntry)
    (e : SchemaEntry) (mn mx : ℚ) (r : List (String × ℕ))
    (hrun : validate_numeric_ranges df dd = Except.ok r)
    (huniq : dd.filter (fun x => x.column_name == e.column_name) = [e])
    (hmin : e.min_value = some mn) (hmax : e.max_value = some mx)
    (hcol : e.column_name ∈ df.colNames) :
    (dictLookup r e.column_name =
      if countViol (df.colCells e.column_name) mn mx = 0 then none
      else some (countViol (df.colCells e.column_name) mn mx))
    ∧ (mn ≤ mx → countViol (df.colCells e.column_name) mn mx =
        countBelow (df.colCells e.column_name) mn +
        countAbove (df.colCells e.column_name) mx)
    ∧ cellViol mn mx Cell.null = false
    ∧ (mn ≤ mx → cellViol mn mx (Cell.num mn) = false
        ∧ cellViol mn mx (Cell.num mx) = false) := by
  refine ⟨rangeFold_main df e mn mx hmin hmax hcol dd [] r hrun huniq rfl,
    fun h => countViol_eq_add _ mn mx h, rfl, fun h => ?_⟩
  have h1 : ¬ mx < mn := not_lt.mpr h
  constructor
  · simp [cellViol, h1]
  · simp [cellViol, h1]

/-- C4 counterexample: with `min = 10 > max = 0` on column values 5 and
10, the code reports 2 out-of-range rows while the claim's
`count(value < min) + count(value > max)` equals 3, and the value 10,
exactly equal to `min`, is counted. -/
theorem claim4_counterexample :
    validate_numeric_ranges ⟨["x"], ["int64"], [[Cell.num 5], [Cell.num 10]]⟩
        [⟨"x", "int64", some 10, some 0⟩] = Except.ok [("x", 2)]
    ∧ countBelow [Cell.num 5, Cell.num 10] 10 +
        countAbove [Cell.num 5, Cell.num 10] 0 = 3
    ∧ cellViol 10 0 (Cell.num 10) = true := by
  refine ⟨?_, ?_, ?_⟩
  · with_unfolding_all decide
  · with_unfolding_all decide
  · with_unfolding_all decide

/-- Witness for C4 on Scenario D: column values `[-5, 50, 150, null]`
with bounds `[0, 100]` report exactly 2 violations. -/
theorem claim4_witness :
    (dictLookup [("score", 2)] "score" =
      if countViol ((⟨["score"], ["int64"],
          [[Cell.num (-5)], [Cell.num 50], [Cell.num 150],
           [Cell.null]]⟩ : Df).colCells "score") 0 100 = 0 then none
      else some (countViol ((⟨["score"], ["int64"],
          [[Cell.num (-5)], [Cell.num 50], [Cell.num 150],
           [Cell.null]]⟩ : Df).colCells "score") 0 100))
    ∧ ((0 : ℚ) ≤ 100 →
        countViol ((⟨["score"], ["int64"],
          [[Cell.num (-5)], [Cell.num 50], [Cell.num 150],
           [Cell.null]]⟩ : Df).colCells "score") 0 100 =
        countBelow ((⟨["score"], ["int64"],
          [[Cell.num (-5)], [Cell.num 50], [Cell.num 150],
           [Cell.null]]⟩ : Df).colCells "score") 0 +
        countAbove ((⟨["score"], ["int64"],
          [[Cell.num (-5)], [Cell.num 50], [Cell.num 150],
           [Cell.null]]⟩ : Df).colCells "score") 100) :=
  ⟨(claim4_range_count ⟨["score"], ["int64"],
      [[Cell.num (-5)], [Cell.num 50], [Cell.num 150], [Cell.null]]⟩
      [⟨"score", "int64", some 0, some 100⟩]
      ⟨"score", "int64", some 0, some 100⟩ 0 100 [("score", 2)]
      (by with_unfolding_all decide) (by with_unfolding_all decide)
      rfl rfl (by decide)).1,
   (claim4_range_count ⟨["score"], ["int64"],
      [[Cell.num (-5)], [Cell.num 50], [Cell.num 150], [Cell.null]]⟩
      [⟨"score", "int64", some 0, some 100⟩]
      ⟨"score", "int64", some 0, some 100⟩ 0 100 [("score", 2)]
      (by with_unfolding_all decide) (by with_unfolding_all decide)
      rfl rfl (by decide)).2.1⟩

/-- C5 (code bug): `validate_numeric_ranges` has no dtype guard — a
schema entry with both bounds present whose dataset column holds text
raises a `TypeError` (modelled as `Except.error`) instead of being
silently ignored as the documentation and spec describe. -/
theorem claim5_nonnumeric_bounds_raise :
    validate_numeric_ranges ⟨["name"], ["object"], [[Cell.str "alice"]]⟩
      [⟨"name", "string", some 0, some 10⟩] = Except.error () := by
  with_unfolding_all decide

/-- C10: the missing-data and duplicate reports depend only on the
dataset — constructing the checker with the same dataset and any two
schema models yields identical reports for those two checks. -/
theorem claim10_schema_noninterference (df : Df)
    (s₁ s₂ : List SchemaEntry) :
    (checkMissingS ⟨df, s₁⟩).1 = (checkMissingS ⟨df, s₂⟩).1
    ∧ (checkDuplicatesS ⟨df, s₁⟩).1 = (checkDuplicatesS ⟨df, s₂⟩).1 :=
  ⟨rfl, rfl⟩

end DQC
